import Mathlib

/-!
# A verification development for the CoAPy message layer

This file is a shallow embedding, in Lean 4, of the core of the CoAPy
library (`coapy/options.py`, `coapy/connection.py`, `coapy/link.py`,
`coapy/constants.py`), together with theorems settling the behavioural
claims about that code.

Modelling conventions:

* Python byte strings are modelled as `List Nat`, one entry per octet
  (`ord`/`chr` of the source become the identity on `Nat`, with the
  `chr` range check made explicit where the source can raise).
* Python integers are `Nat` (or `Int` where the source can go negative);
  bit operations of the source are written with `/ %` arithmetic:
  `x >> 4` is `x / 16`, `x & 0x0F` is `x % 16`, `x & 0x07` is `x % 8`,
  `delta << 4` is `delta * 16`.
* Fallible Python code (raising exceptions) returns `Except Err`.
* Wall-clock times (`time.time()`) are abstracted as a `Nat` parameter
  `now` supplied by the caller.
* `set()` objects of the source hash by object identity, so they behave
  like lists of records; they are modelled as lists kept in insertion
  order, and reception-record objects are identified by a `Nat` id.
-/

/-- The error outcomes of the embedded code.  The source raises
`IndexError`, `struct.error`, `ValueError`, a bare `Exception` for a bad
version or a duplicated reply, `UnrecognizedOptionError`, and the
`'Option length too large'` exception; `chrRange` models `chr` applied
outside `[0, 256)`. -/
inductive Err where
  | indexError : Err
  | structError : Err
  | valueError : Err
  | versionError : Err
  | lengthOverflow : Err
  | chrRange : Err
  | alreadyResponded : Err
  | linkFormatError : Err
  | unrecognizedOption (option_type : Nat) (option_value : List Nat) : Err
deriving DecidableEq

/-- Python `chr`: valid only on `[0, 256)`; the argument is an `Int`
because the option encoder computes deltas by subtraction. -/
def chr (x : Int) : Except Err Nat :=
  if 0 ≤ x ∧ x < 256 then .ok x.toNat else .error .chrRange

/-- Source `coapy.options.length_of_vlint`, inner `while` loop:
`octets = 1; while (1 << (8 * octets)) <= value: octets += 1`. -/
def length_of_vlint_go (value octets : Nat) : Nat :=
  if h : 2 ^ (8 * octets) ≤ value then length_of_vlint_go value (octets + 1)
  else octets
termination_by value - octets
decreasing_by
  have h1 : octets < 2 ^ (8 * octets) :=
    lt_of_lt_of_le (Nat.lt_two_pow octets)
      (Nat.pow_le_pow_right (by norm_num) (by omega))
  omega

/-- Source `coapy.options.length_of_vlint`: the number of octets `pack_vlint`
uses for `value`. -/
def length_of_vlint (value : Nat) : Nat := length_of_vlint_go value 1

/-- Source `coapy.options.pack_vlint`, the `while` loop:
`while 0 != value: octets.insert(0, chr(value & 0xFF)); value = value / 256`.
Building by prepending the low octet is rendered as recursing on the high
part and appending the low octet. -/
def pack_vlint_go (value : Nat) : List Nat :=
  if h : value = 0 then []
  else pack_vlint_go (value / 256) ++ [value % 256]
termination_by value
decreasing_by exact Nat.div_lt_self (Nat.pos_of_ne_zero h) (by norm_num)

/-- Source `coapy.options.pack_vlint`: big-endian octets, leading zero octets
elided, with `0` packed as a single zero octet. -/
def pack_vlint (value : Nat) : List Nat :=
  let octets := pack_vlint_go value
  if octets = [] then [0] else octets

/-- Source `coapy.options.unpack_vlint`:
`value = 0; for c in packed: value = (value * 256) + ord(c)`. -/
def unpack_vlint (packed : List Nat) : Nat :=
  packed.foldl (fun value c => value * 256 + c) 0

/-- Source `coapy.options.option_type_is_elective`: `0 == (type_val & 0x01)`. -/
def option_type_is_elective (type_val : Nat) : Bool :=
  type_val % 2 = 0

/-- Source `coapy.options.OPTION_TYPE_FENCEPOST`. -/
def OPTION_TYPE_FENCEPOST : Nat := 14

/-- The option classes registered in `coapy.options.Registry`, one
constructor per leaf class, each carrying the class's value state:
`ContentType` (Type 1), `MaxAge` (Type 2), `UriScheme` (Type 3),
`Etag` (Type 4), `UriAuthority` (Type 5), `Location` (Type 6),
`UriPath` (Type 9), `Block` (Type 13, with its `block_number`, `more`
and `size_exponent` fields). -/
inductive Opt where
  | contentType (value : Nat) : Opt
  | maxAge (value : Nat) : Opt
  | uriScheme (value : List Nat) : Opt
  | etag (value : List Nat) : Opt
  | uriAuthority (value : List Nat) : Opt
  | location (value : List Nat) : Opt
  | uriPath (value : List Nat) : Opt
  | block (block_number : Nat) (more : Bool) (size_exponent : Nat) : Opt
deriving DecidableEq

/-- Source `Block._calculate_value`:
`v = block_number << 4; if more: v += 0x08; v += 0x07 & (size_exponent - 4)`. -/
def blockValue (block_number : Nat) (more : Bool) (size_exponent : Nat) : Nat :=
  block_number * 16 + (if more then 8 else 0) + (size_exponent - 4) % 8

/-- The `Type` class attribute of each option class. -/
def Opt.optType : Opt → Nat
  | .contentType _ => 1
  | .maxAge _ => 2
  | .uriScheme _ => 3
  | .etag _ => 4
  | .uriAuthority _ => 5
  | .location _ => 6
  | .uriPath _ => 9
  | .block _ _ _ => 13

/-- The heterogeneous `value` property of an option instance: an `int`
for `ContentType`, `MaxAge` and `Block` (for `Block` the packed composite
integer computed by `_calculate_value`), a byte string for the rest. -/
inductive OptValue where
  | vint (n : Nat) : OptValue
  | vstr (s : List Nat) : OptValue
deriving DecidableEq

/-- The `value` property of each option class. -/
def Opt.value : Opt → OptValue
  | .contentType v => .vint v
  | .maxAge v => .vint v
  | .uriScheme s => .vstr s
  | .etag s => .vstr s
  | .uriAuthority s => .vstr s
  | .location s => .vstr s
  | .uriPath s => .vstr s
  | .block bn m se => .vint (blockValue bn m se)

/-- The `length` property of each option class: `1` for `ContentType`,
`len(value)` for string options, `length_of_vlint(value)` for the
vlint-packed options. -/
def Opt.length : Opt → Nat
  | .contentType _ => 1
  | .maxAge v => length_of_vlint v
  | .uriScheme s => s.length
  | .etag s => s.length
  | .uriAuthority s => s.length
  | .location s => s.length
  | .uriPath s => s.length
  | .block bn m se => length_of_vlint (blockValue bn m se)

/-- The `packed` property of each option class: `struct.pack('B', value)`
for `ContentType`, the value itself for string options, `pack_vlint` for
the vlint-packed options. -/
def Opt.packed : Opt → List Nat
  | .contentType v => [v]
  | .maxAge v => pack_vlint v
  | .uriScheme s => s
  | .etag s => s
  | .uriAuthority s => s
  | .location s => s
  | .uriPath s => s
  | .block bn m se => pack_vlint (blockValue bn m se)

/-- Source `is_default`: `self.Default == self.value`.  Defaults: `ContentType`
0, `MaxAge` 60, `UriScheme` `'coap'`, `UriAuthority` `''`, `UriPath` `''`;
`Etag`, `Location` and `Block` have Default `None`, and in Python 2
`None == value` is `False` for these value types. -/
def Opt.isDefault : Opt → Bool
  | .contentType v => v == 0
  | .maxAge v => v == 60
  | .uriScheme s => s == [99, 111, 97, 112]
  | .etag _ => false
  | .uriAuthority s => s == []
  | .location _ => false
  | .uriPath s => s == []
  | .block _ _ _ => false

/-- The constraints the Python constructors (`_setValue` and
`Block.__init__`) enforce on an option instance, so that an `Opt`
satisfying `valid` is exactly a constructible Python option instance:
value ranges, value-length bounds, no leading `/` for URI-path style
options, `size_exponent` within `[4, 11]`, and each octet of a string
value an actual byte. -/
def Opt.valid : Opt → Bool
  | .contentType v => v ≤ 255
  | .maxAge v => v ≤ 4294967295
  | .uriScheme s => s.length ≤ 270 && s.all (fun b => b ≤ 255)
  | .etag s => 1 ≤ s.length && s.length ≤ 4 && s.all (fun b => b ≤ 255)
  | .uriAuthority s => s.length ≤ 270 && s.all (fun b => b ≤ 255)
  | .location s => (s.head? != some 47) && s.length ≤ 270 && s.all (fun b => b ≤ 255)
  | .uriPath s => (s.head? != some 47) && s.length ≤ 270 && s.all (fun b => b ≤ 255)
  | .block _ _ se => 4 ≤ se && se ≤ 11

/-- Source `ContentType.unpack`: `cls(struct.unpack('B', packed)[0])`;
`struct.unpack('B', s)` requires exactly one octet, and `_setValue`
requires the value within `[0, 255]`. -/
def ContentType_unpack (packed : List Nat) : Except Err Opt :=
  match packed with
  | [b] => if 255 < b then .error .valueError else .ok (.contentType b)
  | _ => .error .structError

/-- Source `MaxAge.unpack` (via `_IntegerValue_mixin.unpack`):
`cls(unpack_vlint(packed))` with `MAX_VALUE = 0xFFFFFFFF`. -/
def MaxAge_unpack (packed : List Nat) : Except Err Opt :=
  let v := unpack_vlint packed
  if 4294967295 < v then .error .valueError else .ok (.maxAge v)

/-- Source `UriScheme.unpack` (via `_StringValue_mixin`): length within
`[0, 270]`. -/
def UriScheme_unpack (packed : List Nat) : Except Err Opt :=
  if 270 < packed.length then .error .valueError else .ok (.uriScheme packed)

/-- Source `Etag.unpack`: length within `[1, 4]`. -/
def Etag_unpack (packed : List Nat) : Except Err Opt :=
  if packed.length < 1 ∨ 4 < packed.length then .error .valueError
  else .ok (.etag packed)

/-- Source `UriAuthority.unpack`: length within `[0, 270]`. -/
def UriAuthority_unpack (packed : List Nat) : Except Err Opt :=
  if 270 < packed.length then .error .valueError else .ok (.uriAuthority packed)

/-- Source `Location.unpack` (via `_UriPath_mixin`): must not start with `/`
(octet 47), length within `[0, 270]`. -/
def Location_unpack (packed : List Nat) : Except Err Opt :=
  if packed.head? = some 47 then .error .valueError
  else if 270 < packed.length then .error .valueError
  else .ok (.location packed)

/-- Source `UriPath.unpack` (via `_UriPath_mixin`): must not start with `/`,
length within `[0, 270]`. -/
def UriPath_unpack (packed : List Nat) : Except Err Opt :=
  if packed.head? = some 47 then .error .valueError
  else if 270 < packed.length then .error .valueError
  else .ok (.uriPath packed)

/-- Source `Block.unpack`:
`v = unpack_vlint(packed); cls(block_number=(v >> 4), more=not not 0x08 & v, size_exponent=4 + (0x07 & v))`. -/
def Block_unpack (packed : List Nat) : Except Err Opt :=
  let v := unpack_vlint packed
  .ok (.block (v / 16) ((v / 8) % 2 == 1) (4 + v % 8))

/-- Source `coapy.options.Registry`: the map from integral option types to the
class implementing the option, rendered as a map to that class's
`unpack`. -/
def Registry (type_val : Nat) : Option (List Nat → Except Err Opt) :=
  match type_val with
  | 1 => some ContentType_unpack
  | 2 => some MaxAge_unpack
  | 3 => some UriScheme_unpack
  | 4 => some Etag_unpack
  | 5 => some UriAuthority_unpack
  | 6 => some Location_unpack
  | 9 => some UriPath_unpack
  | 13 => some Block_unpack
  | _ => none

/-- The inner `while MAX_DELTA < delta` fence-post loop of
`coapy.options.encode`.  Returns the emitted fence-post bytes, the number
of entries emitted, the updated `type_val`, and (ghost instrumentation
used only to state stream-shape claims) the list of emitted entries as
`(option number, is-fence-post)` pairs.  `type_val` is an `Int` because
the source's fence-post computed from `opt.Type` can overshoot it. -/
def encodeFenceposts (optType : Nat) (typeVal : Int) :
    Except Err (List Nat × Nat × Int × List (Nat × Bool)) :=
  if h : 14 < (optType : Int) - typeVal then
    -- fencepost = OPTION_TYPE_FENCEPOST * int((opt.Type + OPTION_TYPE_FENCEPOST - 1) / OPTION_TYPE_FENCEPOST)
    let fencepost : Nat := 14 * ((optType + 14 - 1) / 14)
    let fp_delta : Int := (fencepost : Int) - typeVal
    match chr (fp_delta * 16) with
    | .error e => .error e
    | .ok b =>
      match encodeFenceposts optType (fencepost : Int) with
      | .error e => .error e
      | .ok (bs, n, tv, es) => .ok (b :: bs, n + 1, tv, (fencepost, true) :: es)
  else .ok ([], 0, typeVal, [])
termination_by ((optType : Int) - typeVal).toNat
decreasing_by
  have hfp : optType ≤ 14 * ((optType + 14 - 1) / 14) := by
    have hdm := Nat.div_add_mod (optType + 13) 14
    have hml : (optType + 13) % 14 < 14 := Nat.mod_lt _ (by norm_num)
    omega
  omega

/-- The per-option body of the `for opt in option_list` loop of
`coapy.options.encode`, including the skip of default-valued options,
the fence-post loop, the length/extended-length header emission, and the
threading of `type_val`.  The third result component is the ghost entry
list, continuing the instrumentation of `encodeFenceposts`. -/
def encodeLoop (ignore_if_default : Bool) :
    List Opt → Int → Except Err (Nat × List Nat × List (Nat × Bool))
  | [], _ => .ok (0, [], [])
  | opt :: rest, typeVal =>
    if opt.isDefault && ignore_if_default then encodeLoop ignore_if_default rest typeVal
    else
      match encodeFenceposts opt.optType typeVal with
      | .error e => .error e
      | .ok (fpBytes, fpNum, typeVal1, fpEntries) =>
        let delta : Int := (opt.optType : Int) - typeVal1
        let length := opt.length
        let hdrE : Except Err (List Nat) :=
          -- OVER_LENGTH = 15
          if 15 ≤ length then
            if 255 < length - 15 then .error .lengthOverflow
            else
              match chr (delta * 16 + 15) with
              | .error e => .error e
              | .ok b => .ok [b, length - 15]
          else
            match chr (delta * 16 + length) with
            | .error e => .error e
            | .ok b => .ok [b]
        match hdrE with
        | .error e => .error e
        | .ok hdr =>
          match encodeLoop ignore_if_default rest (typeVal1 + delta) with
          | .error e => .error e
          | .ok (n, bytes, entries) =>
            .ok (fpNum + 1 + n, fpBytes ++ hdr ++ opt.packed ++ bytes,
                 fpEntries ++ (opt.optType, false) :: entries)

/-- The `sorted(options, lambda _a,_b: cmp(_a.Type, _b.Type))` call of
`coapy.options.encode`: a stable sort by ascending option `Type`. -/
def sortOptions (options : List Opt) : List Opt :=
  List.insertionSort (fun a b => a.optType ≤ b.optType) options

namespace coapy

namespace options

/-- Source `coapy.options.encode`: sort, then run the emission loop from
`type_val = 0`.  Returns `(num_options, packed, entries)`, where
`entries` is the ghost list of emitted `(option number, is-fence-post)`
pairs (the source returns only the first two components). -/
def encode (options : List Opt) (ignore_if_default : Bool := true) :
    Except Err (Nat × List Nat × List (Nat × Bool)) :=
  encodeLoop ignore_if_default (sortOptions options) 0

/-- The `while 0 < num_options` loop of `coapy.options.decode`:
header octet, optional extended length octet, the value slice, the
fence-post discard, the registry lookup with the elective/critical
distinction, and advancing past the value.  The `options` accumulator is
the source's `set()` of freshly constructed instances, kept in insertion
order. -/
def decodeLoop : Nat → Nat → List Opt → List Nat → Except Err (List Opt × List Nat)
  | 0, _, options, payload => .ok (options, payload)
  | _ + 1, _, _, [] => .error .indexError  -- ord(payload[0]) on an empty string
  | num + 1, type_val, options, odl :: tail =>
      let type_val' := type_val + odl / 16
      -- length = odl & 0x0F, extended when the nibble is 15
      let parsed : Except Err (List Nat × List Nat) :=
        if odl % 16 = 15 then
          match tail with
          | [] => .error .indexError  -- ord(payload[1]) missing
          | ext :: tail2 => .ok (tail2.take (15 + ext), tail2.drop (15 + ext))
        else .ok (tail.take (odl % 16), tail.drop (odl % 16))
      match parsed with
      | .error e => .error e
      | .ok (value, rest) =>
        if type_val' % OPTION_TYPE_FENCEPOST = 0 then
          -- fence-post: entry discarded
          decodeLoop num type_val' options rest
        else
          match Registry type_val' with
          | some unpack =>
            match unpack value with
            | .error e => .error e
            | .ok opt => decodeLoop num type_val' (options ++ [opt]) rest
          | none =>
            if option_type_is_elective type_val' then
              decodeLoop num type_val' options rest
            else .error (.unrecognizedOption type_val' value)

/-- Source `coapy.options.decode`: extract `num_options` options from the head
of `payload`, returning the recognized options and the remaining message
body. -/
def decode (num_options : Nat) (payload : List Nat) :
    Except Err (List Opt × List Nat) :=
  decodeLoop num_options 0 [] payload

end options

end coapy

/-- Source `coapy.constants.COAP_PORT`. -/
def COAP_PORT : Nat := 61616

/-- Source `coapy.constants.RESPONSE_TIMEOUT` (seconds; an `int` in the source). -/
def RESPONSE_TIMEOUT : Nat := 1

/-- Source `coapy.constants.MAX_RETRANSMIT`. -/
def MAX_RETRANSMIT : Nat := 5

/-- Source `coapy.connection.EndPoint.MAX_TX_HISTORY_SEC`. -/
def MAX_TX_HISTORY_SEC : Nat := 10

/-- Source `coapy.connection.Message`.  The `__options` dict (keyed by option
class, hence at most one option per option type) is modelled as its list
of values; `Message.options` of the source returns them sorted by type,
so a well-formed message carries the list sorted by `Opt.optType`. -/
structure Message where
  transactionType : Nat
  code : Nat
  payload : List Nat
  options : List Opt
deriving DecidableEq

/-- Source `Message.CON`. -/
def Message.CON : Nat := 0
/-- Source `Message.NON`. -/
def Message.NON : Nat := 1
/-- Source `Message.ACK`. -/
def Message.ACK : Nat := 2
/-- Source `Message.RST`. -/
def Message.RST : Nat := 3

/-- Source `Message._pack(transaction_id)`: header octet
`chr((version << 6) + ((transaction_type & 0x03) << 4) + (num_options & 0x0F))`
(always in range, since each summand is nibble-masked), then
`struct.pack('!BH', code, transaction_id)` (which raises unless the code
fits one octet and the id two), then the encoded options when any, then
the payload when the code is non-zero and the payload non-empty. -/
def Message.pack (m : Message) (transaction_id : Nat) : Except Err (List Nat) :=
  match coapy.options.encode m.options with
  | .error e => .error e
  | .ok (num_options, option_encoding, _entries) =>
    if 255 < m.code ∨ 65535 < transaction_id then .error .structError
    else
      let vtoc := 64 + m.transactionType % 4 * 16 + num_options % 16
      let data := [vtoc, m.code, transaction_id / 256, transaction_id % 256]
      let data := if 0 < num_options then data ++ option_encoding else data
      .ok (if m.code ≠ 0 ∧ m.payload ≠ [] then data ++ m.payload else data)

/-- The `for opt in options: instance.__options[type(opt)] = opt` loop of
`Message.decode`: dict insertion keyed by the option's class (equivalently
its type number), replacing in place when the key is present and
appending otherwise. -/
def insertOption (options : List Opt) (opt : Opt) : List Opt :=
  if options.any (fun o => o.optType == opt.optType) then
    options.map (fun o => if o.optType == opt.optType then opt else o)
  else options ++ [opt]

/-- Source `Message.decode(packed)`: check the version bits of the first octet,
extract the transaction type and option count nibbles, unpack
`struct.unpack('!BH', packed[1:4])`, run the option decoder on the rest,
and build the message with the remaining octets as payload. -/
def Message.decode (packed : List Nat) : Except Err (Nat × Message) :=
  match packed with
  | [] => .error .indexError  -- ord(packed[0])
  | vtoc :: rest =>
    if vtoc / 64 % 4 ≠ 1 then .error .versionError
    else
      match rest with
      | code :: hi :: lo :: rest2 =>
        let transaction_type := vtoc / 16 % 4
        let num_options := vtoc % 16
        let transaction_id := hi * 256 + lo
        match coapy.options.decode num_options rest2 with
        | .error e => .error e
        | .ok (opts, body) =>
          .ok (transaction_id,
               { transactionType := transaction_type, code := code,
                 payload := body, options := opts.foldl insertOption [] })
      | _ => .error .structError  -- struct.unpack('!BH') needs 3 octets

/-- Source `coapy.connection.TransmissionRecord`.  The end-point back reference
is dropped; the reception records in `responseRecord`/`allResponses` are
identified by `Nat` ids; times are abstract `Nat` clock readings. -/
structure TransmissionRecord where
  message : Message
  transactionId : Nat
  packed : List Nat
  transmissionsLeft : Nat
  responseTimeout : Nat
  nextEventTime : Option Nat
  lastEventTime : Option Nat
  transmissionTime : Option Nat
  responseRecord : Option Nat
  responseType : Option Nat
  allResponses : List Nat
deriving DecidableEq

/-- Source `TransmissionRecord.__init__`, as invoked by `EndPoint.send`:
`isMulticastRemote` stands for `is_multicast(remote)` (a socket-library
predicate on the destination address), `transactionId` for the id the
end-point's `_nextTransactionId` allocated, and `now` for `time.time()`.
`__transmissionsLeft` starts at 1 and becomes `MAX_RETRANSMIT` only for a
confirmable message to a non-multicast remote; `__responseType` starts
absent for CON and at the message's own transaction type otherwise. -/
def TransmissionRecord.create (message : Message) (isMulticastRemote : Bool)
    (transactionId now : Nat) : Except Err TransmissionRecord :=
  match Message.pack message transactionId with
  | .error e => .error e
  | .ok packed =>
    .ok { message := message, transactionId := transactionId, packed := packed,
          transmissionsLeft :=
            if message.transactionType = Message.CON ∧ isMulticastRemote = false
            then MAX_RETRANSMIT else 1,
          responseTimeout := RESPONSE_TIMEOUT,
          nextEventTime := some now,
          lastEventTime := none, transmissionTime := none,
          responseRecord := none,
          responseType :=
            if message.transactionType = Message.CON then none
            else some message.transactionType,
          allResponses := [] }

/-- Source `TransmissionRecord._processResponse(rx_record)`: record the event
time, cancel retransmission, keep the first response record and the first
observed response type, and add the record to the identity-keyed
response set. -/
def TransmissionRecord.processResponse (tx : TransmissionRecord)
    (rxId rxKind now : Nat) : TransmissionRecord :=
  { tx with
    lastEventTime := some now,
    nextEventTime := none,
    transmissionsLeft := 0,
    responseRecord :=
      match tx.responseRecord with
      | none => some rxId
      | some r => some r,
    responseType :=
      match tx.responseType with
      | none => some rxKind
      | some k => some k,
    allResponses :=
      if rxId ∈ tx.allResponses then tx.allResponses
      else tx.allResponses ++ [rxId] }

/-- Source `TransmissionRecord._is_unacknowledged`. -/
def TransmissionRecord.isUnacknowledged (tx : TransmissionRecord) : Bool :=
  tx.nextEventTime.isNone && tx.responseType.isNone

/-- Source `coapy.connection.ReceptionRecord` (end-point back reference and
remote address dropped; the `pertains_to` transmission record is
identified by its transaction id). -/
structure ReceptionRecord where
  message : Message
  transactionId : Nat
  responseType : Option Nat
  pertainsTo : Option Nat
deriving DecidableEq

/-- Source `ReceptionRecord.__init__`: decode the packet; `__responseType`
starts absent for a CON message and is pre-set to `Message.NON`
otherwise. -/
def ReceptionRecord.create (packed : List Nat) : Except Err ReceptionRecord :=
  match Message.decode packed with
  | .error e => .error e
  | .ok (transactionId, message) =>
    .ok { message := message, transactionId := transactionId,
          responseType :=
            if message.transactionType = Message.CON then none
            else some Message.NON,
          pertainsTo := none }

/-- Source `ReceptionRecord.has_responded`. -/
def ReceptionRecord.hasResponded (rx : ReceptionRecord) : Bool :=
  rx.responseType.isSome

/-- Source `ReceptionRecord._respond(response_msg)`: raise when a reply has
already been sent, otherwise record the reply's transaction type and send
`response_msg._pack(self.transaction_id)`; the octets handed to `sendto`
are returned alongside the updated record. -/
def ReceptionRecord.respond (rx : ReceptionRecord) (response_msg : Message) :
    Except Err (ReceptionRecord × List Nat) :=
  if rx.hasResponded then .error .alreadyResponded
  else
    match Message.pack response_msg rx.transactionId with
    | .error e => .error e
    | .ok bytes =>
      .ok ({ rx with responseType := some response_msg.transactionType }, bytes)

/-- Source `ReceptionRecord.ack(response_msg=None)`: the default reply is
`Message(Message.ACK)`, i.e. an ACK with code 0, empty payload and no
options. -/
def ReceptionRecord.ack (rx : ReceptionRecord) (response_msg : Option Message) :
    Except Err (ReceptionRecord × List Nat) :=
  rx.respond (response_msg.getD
    { transactionType := Message.ACK, code := 0, payload := [], options := [] })

/-- Source `ReceptionRecord.reset()`: reply with `Message(Message.RST)`. -/
def ReceptionRecord.reset (rx : ReceptionRecord) :
    Except Err (ReceptionRecord × List Nat) :=
  rx.respond
    { transactionType := Message.RST, code := 0, payload := [], options := [] }

/-- Source `ReceptionRecord._set_pertains_to(pertains_to)`: cross-link the
reception record (identified by `rxId`) and the transmission record, and
run `_processResponse` on the latter with this record's message kind. -/
def ReceptionRecord.setPertainsTo (rx : ReceptionRecord) (rxId : Nat)
    (tx : TransmissionRecord) (now : Nat) :
    ReceptionRecord × TransmissionRecord :=
  ({ rx with pertainsTo := some tx.transactionId },
   tx.processResponse rxId rx.message.transactionType now)

/-- The value of a link-format parameter: a string for quoted-string and
ptoken shapes, an integer for `id`, a list of integers for `ct`. -/
inductive PVal where
  | pstr (s : List Char) : PVal
  | pint (n : Nat) : PVal
  | pints (ns : List Nat) : PVal
deriving DecidableEq

/-- Source `PVS_dquotedString.decode`: the regular expression `"([^"]*)"`
matched at the start of the text — an opening quote, a maximal run of
non-quote characters, a closing quote. -/
def pvsDquotedDecode (text : List Char) : Option PVal × List Char :=
  match text with
  | '"' :: t =>
    match t.dropWhile (fun c => c != '"') with
    | '"' :: after => (some (.pstr (t.takeWhile (fun c => c != '"'))), after)
    | _ => (none, text)
  | _ => (none, text)

/-- The characters of `PVS_ptoken._ptoken_char`: the regex class
``!#$%&'()*+-./0-9:<=>?@a-zA-Z[]^_`{|}~`` (codes 33 and 35-43 and 45-58
and 60-91 and 93-126): every visible ASCII character except the
double quote (34), the comma (44), the semicolon (59) and the
backslash (92). -/
def isPtokenChar (c : Char) : Bool :=
  c.toNat == 33 || (35 ≤ c.toNat && c.toNat ≤ 43) ||
  (45 ≤ c.toNat && c.toNat ≤ 58) || (60 ≤ c.toNat && c.toNat ≤ 91) ||
  (93 ≤ c.toNat && c.toNat ≤ 126)

/-- Source `PVS_ptoken.decode`: the regular expression `([ptoken_char]+)`
matched at the start of the text. -/
def pvsPtokenDecode (text : List Char) : Option PVal × List Char :=
  match text.takeWhile isPtokenChar with
  | [] => (none, text)
  | tok => (some (.pstr tok), text.dropWhile isPtokenChar)

/-- Source `PVS_unknown.decode`: quoted-string when the text starts with a
double quote, ptoken otherwise. -/
def pvsUnknownDecode (text : List Char) : Option PVal × List Char :=
  match text with
  | '"' :: _ => pvsDquotedDecode text
  | _ => pvsPtokenDecode text

/-- Source `int` applied to a run of ASCII digits. -/
def digitsToNat (ds : List Char) : Nat :=
  ds.foldl (fun a c => a * 10 + (c.toNat - 48)) 0

/-- Source `PVS_integer.decode`: the regular expression `([0-9]+)` matched at
the start of the text, post-processed by `int`. -/
def pvsIntegerDecode (text : List Char) : Option PVal × List Char :=
  match text.takeWhile Char.isDigit with
  | [] => (none, text)
  | ds => (some (.pint (digitsToNat ds)), text.dropWhile Char.isDigit)

/-- The `(?:,[0-9]+)*` tail of `PVS_commaSeparatedIntegers._re`: greedily
consume comma-digit-run groups.  Each iteration consumes at least two
characters (the comma and a digit), so a fuel of `text.length + 1`
supplied by the caller never runs out. -/
def csiGo : Nat → List Char → List Nat × List Char
  | 0, text => ([], text)
  | fuel + 1, text =>
    match text with
    | ',' :: rest =>
      match rest.takeWhile Char.isDigit with
      | [] => ([], text)
      | ds =>
        let (ns, r) := csiGo fuel (rest.dropWhile Char.isDigit)
        (digitsToNat ds :: ns, r)
    | _ => ([], text)

/-- Source `PVS_commaSeparatedIntegers.decode`: the regular expression
`([0-9]+(?:,[0-9]+)*)` matched at the start of the text, post-processed
into a list of integers. -/
def pvsCsiDecode (text : List Char) : Option PVal × List Char :=
  match text.takeWhile Char.isDigit with
  | [] => (none, text)
  | ds =>
    let (ns, r) := csiGo (text.length + 1) (text.dropWhile Char.isDigit)
    (some (.pints (digitsToNat ds :: ns)), r)

/-- Source `LinkValue._LinkParameterDefinitions` with
`_DefaultLinkProcessing = PVS_unknown`: choose the value decoder by
(lower-cased) parameter name. -/
def linkParamPVS (name : List Char) : List Char → Option PVal × List Char :=
  if name = "d".data then pvsDquotedDecode
  else if name = "sh".data then pvsDquotedDecode
  else if name = "n".data then pvsDquotedDecode
  else if name = "ct".data then pvsCsiDecode
  else if name = "id".data then pvsIntegerDecode
  else pvsUnknownDecode

/-- The characters of `LinkValue._parmname_char`:
``a-zA-Z0-9!#$&+-.^_`|~``. -/
def isParmnameChar (c : Char) : Bool :=
  (97 ≤ c.toNat && c.toNat ≤ 122) || (65 ≤ c.toNat && c.toNat ≤ 90) ||
  (48 ≤ c.toNat && c.toNat ≤ 57) ||
  c.toNat == 33 || c.toNat == 35 || c.toNat == 36 || c.toNat == 38 ||
  c.toNat == 43 || c.toNat == 45 || c.toNat == 46 || c.toNat == 94 ||
  c.toNat == 95 || c.toNat == 96 || c.toNat == 124 || c.toNat == 126

/-- Source `coapy.link.LinkValue`: the URI-reference plus the parameter dict,
the latter as an insertion-ordered association list (a parameter present
without `=` is stored with value `none`, matching
`params.setdefault(paramname, None)`). -/
structure LinkValue where
  uri : List Char
  params : List (List Char × Option PVal)
deriving DecidableEq

/-- Source `dict.setdefault`: keep an existing binding, append a new one. -/
def setdefault (params : List (List Char × Option PVal))
    (k : List Char) (v : Option PVal) : List (List Char × Option PVal) :=
  match params.lookup k with
  | some _ => params
  | none => params ++ [(k, v)]

/-- The `n` property of `LinkValue` (`self.__params.get('n')`). -/
def LinkValue.nAttr (lv : LinkValue) : Option PVal :=
  match lv.params.lookup "n".data with
  | some v => v
  | none => none

/-- The `ct` property of `LinkValue` (`self.__params.get('ct')`). -/
def LinkValue.ctAttr (lv : LinkValue) : Option PVal :=
  match lv.params.lookup "ct".data with
  | some v => v
  | none => none

/-- The `while text.startswith(';')` parameter loop of
`LinkValue.decode`: consume `;`, match `_parmnameEquals_re` (a non-empty
run of parameter-name characters, then an optional `=`), lower-case the
name, decode the value with the registered shape when `=` was present,
and `setdefault` it into the dict.  The loop consumes at least one
character per iteration, so a fuel of `text.length + 1` never runs out;
exhaustion is mapped to the same error as a failed match. -/
def decodeParamsGo : Nat → List (List Char × Option PVal) → List Char →
    Except Err (List (List Char × Option PVal) × List Char)
  | 0, _, _ => .error .linkFormatError
  | fuel + 1, params, text =>
    match text with
    | ';' :: t1 =>
      match t1.takeWhile isParmnameChar with
      | [] => .error .linkFormatError  -- _parmnameEquals_re failed to match
      | name =>
        let lname := name.map Char.toLower
        match t1.dropWhile isParmnameChar with
        | '=' :: t3 =>
          match linkParamPVS lname t3 with
          | (none, _) => .error .linkFormatError
          | (some v, t4) => decodeParamsGo fuel (setdefault params lname (some v)) t4
        | t2 => decodeParamsGo fuel (setdefault params lname none) t2
    | _ => .ok (params, text)

/-- Source `LinkValue.decode(text)`: match the angle-quoted URI
(`PVS_anglequotedString._re`, i.e. `<([^>]*)>`), then run the parameter
loop; returns the link value and the unconsumed remainder. -/
def LinkValue.decode (text : List Char) : Except Err (LinkValue × List Char) :=
  match text with
  | '<' :: t =>
    match t.dropWhile (fun c => c != '>') with
    | '>' :: after =>
      match decodeParamsGo (after.length + 1) [] after with
      | .error e => .error e
      | .ok (params, rest) =>
        .ok ({ uri := t.takeWhile (fun c => c != '>'), params := params }, rest)
    | _ => .error .linkFormatError
  | _ => .error .linkFormatError

/-- The `while text` loop of
`coapy.link.decode_resource_descriptions`: decode a link value, append
it, continue past a `,`, stop otherwise.  Fuelled like the parameter
loop (each iteration consumes the angle-quoted URI, at least two
characters). -/
def decodeResourcesGo : Nat → List LinkValue → List Char →
    Except Err (List LinkValue × List Char)
  | 0, _, _ => .error .linkFormatError
  | fuel + 1, links, text =>
    if text = [] then .ok (links, text)
    else
      match LinkValue.decode text with
      | .error e => .error e
      | .ok (link, t1) =>
        match t1 with
        | ',' :: t2 => decodeResourcesGo fuel (links ++ [link]) t2
        | _ => .ok (links ++ [link], t1)

/-- Source `coapy.link.decode_resource_descriptions(text)`. -/
def decode_resource_descriptions (text : List Char) :
    Except Err (List LinkValue × List Char) :=
  decodeResourcesGo (text.length + 1) [] text

/-! ## Proof infrastructure -/

/-- Derived closed form (proof-side helper): the header octets the
encoder emits for one option entry at delta `delta` and value length
`len`. -/
def headerBytes (delta len : Nat) : List Nat :=
  if 15 ≤ len then [delta * 16 + 15, len - 15] else [delta * 16 + len]

/-- Derived closed form (proof-side helper): the packed option stream
for a list of options emitted in order starting from previous option
number `tv`, with no fence-posts. -/
def streamBytes : Nat → List Opt → List Nat
  | _, [] => []
  | tv, o :: rest =>
    headerBytes (o.optType - tv) o.length ++ o.packed ++ streamBytes o.optType rest

instance {ε α : Type} [DecidableEq ε] [DecidableEq α] : DecidableEq (Except ε α) :=
  fun a b =>
    match a, b with
    | .ok x, .ok y =>
      if h : x = y then .isTrue (by simp [h]) else .isFalse (by simp [h])
    | .error x, .error y =>
      if h : x = y then .isTrue (by simp [h]) else .isFalse (by simp [h])
    | .ok _, .error _ => .isFalse (by simp)
    | .error _, .ok _ => .isFalse (by simp)

instance : IsTotal Opt (fun a b => a.optType ≤ b.optType) :=
  ⟨fun a b => Nat.le_total a.optType b.optType⟩

instance : IsTrans Opt (fun a b => a.optType ≤ b.optType) :=
  ⟨fun _ _ _ hab hbc => Nat.le_trans hab hbc⟩

lemma pack_vlint_go_zero : pack_vlint_go 0 = [] := by
  rw [pack_vlint_go]
  simp

lemma pack_vlint_go_ne {v : Nat} (h : v ≠ 0) :
    pack_vlint_go v = pack_vlint_go (v / 256) ++ [v % 256] := by
  rw [pack_vlint_go]
  simp [h]

lemma pack_vlint_go_foldl :
    ∀ v a, List.foldl (fun x c => x * 256 + c) a (pack_vlint_go v)
      = a * 256 ^ (pack_vlint_go v).length + v := by
  intro v
  induction v using Nat.strong_induction_on with
  | _ v ih =>
    intro a
    by_cases h : v = 0
    · subst h
      rw [pack_vlint_go_zero]
      simp
    · rw [pack_vlint_go_ne h, List.foldl_append,
        ih (v / 256) (Nat.div_lt_self (Nat.pos_of_ne_zero h) (by norm_num)) a]
      have hdm := Nat.div_add_mod v 256
      simp only [List.foldl_cons, List.foldl_nil, List.length_append,
        List.length_cons, List.length_nil, Nat.zero_add]
      calc (a * 256 ^ (pack_vlint_go (v / 256)).length + v / 256) * 256 + v % 256
          = a * (256 ^ (pack_vlint_go (v / 256)).length * 256)
            + (256 * (v / 256) + v % 256) := by ring
        _ = a * 256 ^ ((pack_vlint_go (v / 256)).length + 1) + v := by
            rw [hdm, pow_succ]

lemma unpack_pack_vlint (v : Nat) : unpack_vlint (pack_vlint v) = v := by
  unfold pack_vlint unpack_vlint
  by_cases h : v = 0
  · subst h
    rw [pack_vlint_go_zero]
    simp
  · have hne : pack_vlint_go v ≠ [] := by
      rw [pack_vlint_go_ne h]
      simp
    simp only [hne, if_false, if_neg]
    rw [pack_vlint_go_foldl v 0]
    simp

lemma pack_vlint_go_bounds :
    ∀ v, v ≠ 0 → 256 ^ ((pack_vlint_go v).length - 1) ≤ v
      ∧ v < 256 ^ (pack_vlint_go v).length := by
  intro v
  induction v using Nat.strong_induction_on with
  | _ v ih =>
    intro h
    rw [pack_vlint_go_ne h]
    simp only [List.length_append, List.length_cons, List.length_nil, Nat.zero_add]
    by_cases hsmall : v < 256
    · have hz : v / 256 = 0 := Nat.div_eq_of_lt hsmall
      rw [hz, pack_vlint_go_zero]
      simpa using ⟨Nat.one_le_iff_ne_zero.mpr h, hsmall⟩
    · have hdivne : v / 256 ≠ 0 := by
        have : 1 ≤ v / 256 := (Nat.one_le_div_iff (by norm_num)).mpr (by omega)
        omega
      obtain ⟨hlo, hhi⟩ := ih (v / 256)
        (Nat.div_lt_self (Nat.pos_of_ne_zero h) (by norm_num)) hdivne
      have hk : 1 ≤ (pack_vlint_go (v / 256)).length := by
        have hne2 : pack_vlint_go (v / 256) ≠ [] := by
          rw [pack_vlint_go_ne hdivne]
          simp
        exact List.length_pos.mpr hne2
      set k := (pack_vlint_go (v / 256)).length with hkdef
      have hpow : 256 ^ (k - 1) * 256 = 256 ^ k := by
        conv_rhs => rw [show k = k - 1 + 1 by omega]
        rw [pow_succ]
      constructor
      · have h1 : 256 ^ k ≤ v / 256 * 256 := by
          rw [← hpow]
          exact Nat.mul_le_mul_right 256 hlo
        have h2 : v / 256 * 256 ≤ v := Nat.div_mul_le_self v 256
        simpa using le_trans h1 h2
      · have h1 : v < 256 * (v / 256) + 256 := by
          have hdm := Nat.div_add_mod v 256
          have hml : v % 256 < 256 := Nat.mod_lt v (by norm_num)
          omega
        have h3 : v / 256 + 1 ≤ 256 ^ k := hhi
        calc v < 256 * (v / 256 + 1) := by omega
          _ ≤ 256 * 256 ^ k := Nat.mul_le_mul_left 256 h3
          _ = 256 ^ (k + 1) := by rw [pow_succ]; ring

lemma length_of_vlint_go_run :
    ∀ (d o v : Nat), v < 2 ^ (8 * (o + d)) →
      (∀ i, o ≤ i → i < o + d → 2 ^ (8 * i) ≤ v) →
      length_of_vlint_go v o = o + d := by
  intro d
  induction d with
  | zero =>
    intro o v h1 _
    rw [length_of_vlint_go]
    have hn : ¬ 2 ^ (8 * o) ≤ v := by
      have : 8 * (o + 0) = 8 * o := by ring
      rw [this] at h1
      omega
    simp [hn]
  | succ d ih =>
    intro o v h1 h2
    have hc : 2 ^ (8 * o) ≤ v := h2 o le_rfl (by omega)
    rw [length_of_vlint_go, dif_pos hc]
    have h1' : v < 2 ^ (8 * (o + 1 + d)) := by
      have : 8 * (o + 1 + d) = 8 * (o + (d + 1)) := by ring
      rw [this]
      exact h1
    rw [ih (o + 1) v h1' (fun i hi1 hi2 => h2 i (by omega) (by omega))]
    omega

lemma pow_256_eq (j : Nat) : 256 ^ j = 2 ^ (8 * j) := by
  rw [show (256 : Nat) = 2 ^ 8 by norm_num, ← pow_mul]

lemma pack_vlint_length (v : Nat) : (pack_vlint v).length = length_of_vlint v := by
  unfold pack_vlint length_of_vlint
  by_cases h : v = 0
  · subst h
    rw [pack_vlint_go_zero]
    rw [length_of_vlint_go_run 0 1 0 (by norm_num) (by omega)]
    simp
  · have hne : pack_vlint_go v ≠ [] := by
      rw [pack_vlint_go_ne h]
      simp
    simp only [hne, if_false, if_neg]
    obtain ⟨hlo, hhi⟩ := pack_vlint_go_bounds v h
    have hk : 1 ≤ (pack_vlint_go v).length := List.length_pos.mpr hne
    set k := (pack_vlint_go v).length with hkdef
    rw [length_of_vlint_go_run (k - 1) 1 v]
    · omega
    · have : 1 + (k - 1) = k := by omega
      rw [this, ← pow_256_eq]
      exact hhi
    · intro i hi1 hi2
      have hik : i ≤ k - 1 := by omega
      calc 2 ^ (8 * i) = 256 ^ i := (pow_256_eq i).symm
        _ ≤ 256 ^ (k - 1) := Nat.pow_le_pow_right (by norm_num) hik
        _ ≤ v := hlo

/-- C4: for every `n < 2^64`, `unpack_vlint (pack_vlint n) = n`,
`len (pack_vlint n) = length_of_vlint n`, and zero encodes as a single
zero octet. -/
theorem vlint_roundtrip (n : Nat) (h : n < 2 ^ 64) :
    unpack_vlint (pack_vlint n) = n
    ∧ (pack_vlint n).length = length_of_vlint n
    ∧ pack_vlint 0 = [0] := by
  refine ⟨unpack_pack_vlint n, pack_vlint_length n, ?_⟩
  unfold pack_vlint
  rw [pack_vlint_go_zero]
  simp

/-- Witness for `vlint_roundtrip` at `n = 300`. -/
theorem vlint_roundtrip_witness :
    300 < 2 ^ 64
    ∧ (unpack_vlint (pack_vlint 300) = 300
       ∧ (pack_vlint 300).length = length_of_vlint 300
       ∧ pack_vlint 0 = [0]) :=
  ⟨by norm_num, vlint_roundtrip 300 (by norm_num)⟩

lemma Opt.packed_length (o : Opt) : o.packed.length = o.length := by
  cases o <;> simp [Opt.packed, Opt.length, pack_vlint_length]

lemma Opt.optType_le (o : Opt) : o.optType ≤ 13 := by
  cases o <;> simp [Opt.optType]

lemma Opt.optType_pos (o : Opt) : 1 ≤ o.optType := by
  cases o <;> simp [Opt.optType]

lemma Opt.optType_mod_fencepost (o : Opt) : o.optType % 14 ≠ 0 := by
  cases o <;> simp [Opt.optType]

/-- Unpacking the packed value of a constructible option through its
registered class yields an equal option instance. -/
lemma Registry_unpack_packed (o : Opt) (h : o.valid = true) :
    ∃ f, Registry o.optType = some f ∧ f o.packed = .ok o := by
  cases o with
  | contentType v =>
    refine ⟨ContentType_unpack, rfl, ?_⟩
    simp only [Opt.valid, decide_eq_true_eq] at h
    simp [ContentType_unpack, Opt.packed, Nat.not_lt.mpr h]
  | maxAge v =>
    refine ⟨MaxAge_unpack, rfl, ?_⟩
    simp only [Opt.valid, decide_eq_true_eq] at h
    simp [MaxAge_unpack, Opt.packed, unpack_pack_vlint, Nat.not_lt.mpr h]
  | uriScheme s =>
    refine ⟨UriScheme_unpack, rfl, ?_⟩
    simp only [Opt.valid, Bool.and_eq_true, decide_eq_true_eq] at h
    simp [UriScheme_unpack, Opt.packed, Nat.not_lt.mpr h.1]
  | etag s =>
    refine ⟨Etag_unpack, rfl, ?_⟩
    simp only [Opt.valid, Bool.and_eq_true, decide_eq_true_eq] at h
    simp only [Etag_unpack, Opt.packed]
    rw [if_neg (by omega)]
  | uriAuthority s =>
    refine ⟨UriAuthority_unpack, rfl, ?_⟩
    simp only [Opt.valid, Bool.and_eq_true, decide_eq_true_eq] at h
    simp [UriAuthority_unpack, Opt.packed, Nat.not_lt.mpr h.1]
  | location s =>
    refine ⟨Location_unpack, rfl, ?_⟩
    simp only [Opt.valid, Bool.and_eq_true, bne_iff_ne, ne_eq,
      decide_eq_true_eq] at h
    simp only [Location_unpack, Opt.packed]
    rw [if_neg h.1.1, if_neg (by omega)]
  | uriPath s =>
    refine ⟨UriPath_unpack, rfl, ?_⟩
    simp only [Opt.valid, Bool.and_eq_true, bne_iff_ne, ne_eq,
      decide_eq_true_eq] at h
    simp only [UriPath_unpack, Opt.packed]
    rw [if_neg h.1.1, if_neg (by omega)]
  | block bn m se =>
    refine ⟨Block_unpack, rfl, ?_⟩
    simp only [Opt.valid, Bool.and_eq_true, decide_eq_true_eq] at h
    have hs : (se - 4) % 8 = se - 4 := Nat.mod_eq_of_lt (by omega)
    cases m with
    | true =>
      have hbv : blockValue bn true se = bn * 16 + 8 + (se - 4) := by
        simp [blockValue, hs]
      simp only [Block_unpack, Opt.packed, unpack_pack_vlint, hbv,
        Except.ok.injEq, Opt.block.injEq]
      have h8 : (bn * 16 + 8 + (se - 4)) / 8 % 2 = 1 := by omega
      refine ⟨by omega, by simp [h8], by omega⟩
    | false =>
      have hbv : blockValue bn false se = bn * 16 + 0 + (se - 4) := by
        simp [blockValue, hs]
      simp only [Block_unpack, Opt.packed, unpack_pack_vlint, hbv,
        Except.ok.injEq, Opt.block.injEq]
      have h8 : (bn * 16 + (se - 4)) / 8 % 2 = 0 := by omega
      refine ⟨by omega, by simp [h8], by omega⟩

lemma chr_ok {x : Int} (h0 : 0 ≤ x) (h1 : x < 256) : chr x = .ok x.toNat := by
  simp [chr, h0, h1]

lemma encodeFenceposts_skip {t : Nat} {tv : Int} (h : ¬ (14 < (t : Int) - tv)) :
    encodeFenceposts t tv = .ok ([], 0, tv, []) := by
  rw [encodeFenceposts]
  simp [h]

lemma chain_le_of_cons {a b : Nat} {l : List Nat}
    (h : List.Chain (· ≤ ·) a (b :: l)) : List.Chain (· ≤ ·) a l := by
  cases h with
  | cons hab h1 =>
    cases l with
    | nil => exact .nil
    | cons c l' =>
      cases h1 with
      | cons hbc h2 => exact .cons (le_trans hab hbc) h2

/-- Characterization of the encoder loop on registered options emitted
from a previous option number no greater than any of their types: no
fence-posts are needed (every registered type is at most 13), every
`chr` is in range, and the emission is the `streamBytes` closed form
over the options surviving the default filter. -/
lemma encodeLoop_eq (ign : Bool) :
    ∀ (opts : List Opt) (tv : Nat),
      (∀ o ∈ opts, o.length ≤ 270) →
      List.Chain (· ≤ ·) tv (opts.map Opt.optType) →
      encodeLoop ign opts (tv : Int) =
        .ok ((opts.filter (fun o => !(o.isDefault && ign))).length,
             streamBytes tv (opts.filter (fun o => !(o.isDefault && ign))),
             (opts.filter (fun o => !(o.isDefault && ign))).map
               (fun o => (o.optType, false))) := by
  intro opts
  induction opts with
  | nil =>
    intro tv _ _
    simp [encodeLoop, streamBytes]
  | cons o rest ih =>
    intro tv h270 hchain
    have htv_le : tv ≤ o.optType := by
      cases hchain with
      | cons h _ => exact h
    have hchain_rest : List.Chain (· ≤ ·) o.optType (rest.map Opt.optType) := by
      cases hchain with
      | cons _ h => exact h
    have h270r : ∀ x ∈ rest, x.length ≤ 270 := fun x hx => h270 x (by simp [hx])
    have h270o : o.length ≤ 270 := h270 o (by simp)
    have ht13 : o.optType ≤ 13 := o.optType_le
    by_cases hd : (o.isDefault && ign) = true
    · have := ih tv h270r (chain_le_of_cons hchain)
      simp only [encodeLoop, hd, if_true, List.filter_cons, Bool.not_eq_true']
      rw [if_neg (by simp [hd])]
      exact this
    · have hfp : encodeFenceposts o.optType (tv : Int) = .ok ([], 0, (tv : Int), []) :=
        encodeFenceposts_skip (by
          push_cast
          omega)
      have hdelta : (o.optType : Int) - (tv : Int) = ((o.optType - tv : Nat) : Int) := by
        omega
      have hrec := ih o.optType h270r hchain_rest
      simp only [encodeLoop, hd, if_false, hfp]
      rw [if_neg (by simp [hd])]
      by_cases hlen : 15 ≤ o.length
      · have hc : chr (((o.optType : Int) - (tv : Int)) * 16 + 15)
            = .ok ((o.optType - tv) * 16 + 15) := by
          rw [hdelta]
          rw [chr_ok (by positivity) (by push_cast; omega)]
          try congr 1
          try omega
        have hov : ¬ (255 < o.length - 15) := by omega
        simp only [if_pos hlen, if_neg hov, hc]
        have htv1 : (tv : Int) + ((o.optType : Int) - (tv : Int)) = (o.optType : Int) := by
          ring
        rw [htv1, hrec]
        simp only [List.filter_cons]
        rw [if_pos (by simp [hd])]
        simp [streamBytes, headerBytes, if_pos hlen, Nat.add_comm]
      · have hc : chr (((o.optType : Int) - (tv : Int)) * 16 + (o.length : Int))
            = .ok ((o.optType - tv) * 16 + o.length) := by
          rw [hdelta]
          rw [chr_ok (by positivity) (by push_cast; omega)]
          try congr 1
          try omega
        simp only [if_neg hlen, hc]
        have htv1 : (tv : Int) + ((o.optType : Int) - (tv : Int)) = (o.optType : Int) := by
          ring
        rw [htv1, hrec]
        simp only [List.filter_cons]
        rw [if_pos (by simp [hd])]
        simp [streamBytes, headerBytes, if_neg hlen, Nat.add_comm]

/-- Decoding the `streamBytes` closed form of a list of constructible
options, emitted in nondecreasing type order from previous number `tv`,
recovers exactly those options and leaves the trailing octets. -/
lemma decodeLoop_stream :
    ∀ (l : List Opt) (tv : Nat) (acc : List Opt) (rest : List Nat),
      (∀ o ∈ l, o.valid = true) →
      List.Chain (· ≤ ·) tv (l.map Opt.optType) →
      coapy.options.decodeLoop l.length tv acc (streamBytes tv l ++ rest)
        = .ok (acc ++ l, rest) := by
  intro l
  induction l with
  | nil =>
    intro tv acc rest _ _
    simp [coapy.options.decodeLoop, streamBytes]
  | cons o t ih =>
    intro tv acc rest hvalid hchain
    have htv_le : tv ≤ o.optType := by
      cases hchain with
      | cons h _ => exact h
    have hchain_t : List.Chain (· ≤ ·) o.optType (t.map Opt.optType) := by
      cases hchain with
      | cons _ h => exact h
    have hvo : o.valid = true := hvalid o (by simp)
    have hvt : ∀ x ∈ t, x.valid = true := fun x hx => hvalid x (by simp [hx])
    have ht13 : o.optType ≤ 13 := o.optType_le
    have hplen : o.packed.length = o.length := o.packed_length
    obtain ⟨f, hreg, hunp⟩ := Registry_unpack_packed o hvo
    have hmod : ¬ (o.optType % OPTION_TYPE_FENCEPOST = 0) := by
      simpa [OPTION_TYPE_FENCEPOST] using o.optType_mod_fencepost
    have hd16 : o.optType - tv < 16 := by omega
    have hrec := ih o.optType (acc ++ [o]) rest hvt hchain_t
    by_cases hlen : 15 ≤ o.length
    · have hhdr : headerBytes (o.optType - tv) o.length
          = [(o.optType - tv) * 16 + 15, o.length - 15] := by
        simp [headerBytes, hlen]
      simp only [streamBytes, hhdr, List.length_cons, List.cons_append,
        List.nil_append, coapy.options.decodeLoop]
      have hodl_div : ((o.optType - tv) * 16 + 15) / 16 = o.optType - tv := by
        omega
      have hodl_mod : ((o.optType - tv) * 16 + 15) % 16 = 15 := by
        omega
      have htv' : tv + (o.optType - tv) = o.optType := by omega
      have h15 : 15 + (o.length - 15) = o.length := by omega
      simp only [hodl_div, hodl_mod, if_pos rfl, htv', h15]
      rw [List.append_assoc, List.take_left' hplen, List.drop_left' hplen]
      simp only [hmod, if_false, hreg, hunp]
      rw [if_pos trivial]
      simp only [hunp, hrec]
      simp
    · have hhdr : headerBytes (o.optType - tv) o.length
          = [(o.optType - tv) * 16 + o.length] := by
        simp [headerBytes, hlen]
      simp only [streamBytes, hhdr, List.length_cons, List.cons_append,
        List.nil_append, coapy.options.decodeLoop]
      have hodl_div : ((o.optType - tv) * 16 + o.length) / 16 = o.optType - tv := by
        omega
      have hodl_mod : ((o.optType - tv) * 16 + o.length) % 16 = o.length := by
        omega
      have hne15 : ¬ (o.length = 15) := by omega
      have htv' : tv + (o.optType - tv) = o.optType := by omega
      simp only [hodl_div, hodl_mod, if_neg hne15, htv']
      rw [List.append_assoc, List.take_left' hplen, List.drop_left' hplen]
      rw [if_neg hmod]
      simp only [hreg, hunp]
      rw [hrec]
      simp

lemma sortOptions_single (o : Opt) : sortOptions [o] = [o] := by
  simp [sortOptions, List.insertionSort, List.orderedInsert]

/-- C2, counterexample: for a default-valued option instance (here
`ContentType` with its default value 0) the encoder's default
skip-defaults setting elides the option entirely, so decoding the
encoding of the singleton yields the empty collection, which contains no
option of the same kind and value. -/
theorem option_single_roundtrip_cex :
    coapy.options.encode [Opt.contentType 0] true = .ok (0, [], [])
    ∧ coapy.options.decode 0 [] = .ok ([], [])
    ∧ (Opt.contentType 0).isDefault = true
    ∧ ([] : List Opt).any
        (fun o2 => o2.optType == (Opt.contentType 0).optType
          && o2.value == (Opt.contentType 0).value) = false := by
  decide

/-- C2 (amended): for every constructible option instance `o` whose
value is not the option's default, decoding the encoding of the
singleton `{o}` under the encoder's default skip-defaults setting yields
exactly the collection `[o]`, which in particular contains an option of
the same kind whose value equals `o.value`. -/
theorem option_single_roundtrip (o : Opt) (hv : o.valid = true)
    (hl : o.length ≤ 270) (hd : o.isDefault = false) :
    coapy.options.encode [o] true
      = .ok (1, streamBytes 0 [o], [(o.optType, false)])
    ∧ coapy.options.decode 1 (streamBytes 0 [o]) = .ok ([o], [])
    ∧ (coapy.options.decode 1 (streamBytes 0 [o])).map
        (fun r => r.1.any (fun o2 => o2.optType == o.optType
          && o2.value == o.value)) = .ok true := by
  have henc : coapy.options.encode [o] true
      = .ok (1, streamBytes 0 [o], [(o.optType, false)]) := by
    unfold coapy.options.encode
    rw [sortOptions_single]
    have := encodeLoop_eq true [o] 0 (by simpa using hl)
      (.cons (Nat.zero_le _) .nil)
    simpa [hd] using this
  have hdec : coapy.options.decode 1 (streamBytes 0 [o]) = .ok ([o], []) := by
    unfold coapy.options.decode
    have := decodeLoop_stream [o] 0 [] [] (by simpa using hv)
      (.cons (Nat.zero_le _) .nil)
    simpa using this
  refine ⟨henc, hdec, ?_⟩
  rw [hdec]
  simp [Except.map]

/-- Witness for `option_single_roundtrip` at `o = UriPath "s"`. -/
theorem option_single_roundtrip_witness :
    ((Opt.uriPath [115]).valid = true
     ∧ (Opt.uriPath [115]).length ≤ 270
     ∧ (Opt.uriPath [115]).isDefault = false)
    ∧ (coapy.options.encode [Opt.uriPath [115]] true
        = .ok (1, streamBytes 0 [Opt.uriPath [115]],
               [((Opt.uriPath [115]).optType, false)])
       ∧ coapy.options.decode 1 (streamBytes 0 [Opt.uriPath [115]])
        = .ok ([Opt.uriPath [115]], [])
       ∧ (coapy.options.decode 1 (streamBytes 0 [Opt.uriPath [115]])).map
          (fun r => r.1.any (fun o2 => o2.optType == (Opt.uriPath [115]).optType
            && o2.value == (Opt.uriPath [115]).value)) = .ok true) :=
  ⟨⟨by decide, by decide, by decide⟩,
   option_single_roundtrip (Opt.uriPath [115]) (by decide) (by decide) (by decide)⟩

lemma sortOptions_sorted (l : List Opt) :
    List.Sorted (fun a b => a.optType ≤ b.optType) (sortOptions l) :=
  List.sorted_insertionSort _ l

lemma sortOptions_perm (l : List Opt) : (sortOptions l).Perm l :=
  List.perm_insertionSort _ l

lemma chain_zero_of_chain' {l : List Nat} (h : List.Chain' (· ≤ ·) l) :
    List.Chain (· ≤ ·) 0 l := by
  cases l with
  | nil => exact .nil
  | cons a t => exact List.Chain.cons (Nat.zero_le a) h

lemma chain_delta :
    ∀ (l : List Nat) (a : Nat), List.Chain (· ≤ ·) a l →
      (∀ x ∈ l, x ≤ 14) →
      List.Chain (fun x y => x ≤ y ∧ y - x ≤ 14) a l := by
  intro l
  induction l with
  | nil => intro a _ _; exact .nil
  | cons b t ih =>
    intro a hc h14
    cases hc with
    | cons hab hbt =>
      exact .cons ⟨hab, by have := h14 b (by simp); omega⟩
        (ih b hbt (fun x hx => h14 x (by simp [hx])))

/-- C3 (amended): for every collection of (registered) option instances
whose packed lengths are representable, the encoder succeeds; no
fence-posts are emitted (every registered option number is at most 13,
so the fence-post clause of the claim holds vacuously); the sequence of
emitted option numbers is nondecreasing with every delta from the
previous emitted number (initially 0) in `[0, 14]`; and the sequence is
strictly ascending provided the instances' option numbers are pairwise
distinct (with duplicated numbers it is only nondecreasing). -/
theorem encode_stream_shape (opts : List Opt) (ign : Bool)
    (h270 : ∀ o ∈ opts, o.length ≤ 270) :
    ∃ n bytes entries,
      coapy.options.encode opts ign = .ok (n, bytes, entries)
      ∧ (∀ e ∈ entries, e.2 = false)
      ∧ List.Chain (fun a b => a ≤ b ∧ b - a ≤ 14) 0 (entries.map Prod.fst)
      ∧ ((opts.map Opt.optType).Nodup →
          List.Pairwise (· < ·) (entries.map Prod.fst)) := by
  have hsorted := sortOptions_sorted opts
  have hperm := sortOptions_perm opts
  have h270s : ∀ o ∈ sortOptions opts, o.length ≤ 270 :=
    fun o ho => h270 o (hperm.mem_iff.mp ho)
  have hpw : List.Pairwise (· ≤ ·) ((sortOptions opts).map Opt.optType) :=
    List.pairwise_map.mpr hsorted
  have hchain : List.Chain (· ≤ ·) 0 ((sortOptions opts).map Opt.optType) :=
    chain_zero_of_chain' (List.chain'_iff_pairwise.mpr hpw)
  have henc := encodeLoop_eq ign (sortOptions opts) 0 h270s hchain
  set fopts := (sortOptions opts).filter (fun o => !(o.isDefault && ign)) with hfopts
  have hsub : (fopts.map Opt.optType).Sublist
      ((sortOptions opts).map Opt.optType) :=
    List.Sublist.map _ (List.filter_sublist _)
  refine ⟨fopts.length, streamBytes 0 fopts,
    fopts.map (fun o => (o.optType, false)), ?_, ?_, ?_, ?_⟩
  · unfold coapy.options.encode
    simpa using henc
  · intro e he
    simp only [List.mem_map] at he
    obtain ⟨o, _, rfl⟩ := he
    rfl
  · have hmapmap : (fopts.map (fun o => (o.optType, false))).map Prod.fst
        = fopts.map Opt.optType := by
      simp [List.map_map, Function.comp]
    rw [hmapmap]
    have hpwf : List.Pairwise (· ≤ ·) (fopts.map Opt.optType) :=
      List.Pairwise.sublist hsub hpw
    have h14 : ∀ x ∈ fopts.map Opt.optType, x ≤ 14 := by
      intro x hx
      simp only [List.mem_map] at hx
      obtain ⟨o, _, rfl⟩ := hx
      have := o.optType_le
      omega
    exact chain_delta _ 0
      (chain_zero_of_chain' (List.chain'_iff_pairwise.mpr hpwf)) h14
  · intro hnodup
    have hmapmap : (fopts.map (fun o => (o.optType, false))).map Prod.fst
        = fopts.map Opt.optType := by
      simp [List.map_map, Function.comp]
    rw [hmapmap]
    have hnodup2 : ((sortOptions opts).map Opt.optType).Nodup :=
      ((hperm.map Opt.optType).nodup_iff).mpr hnodup
    have hlt : List.Pairwise (· < ·) ((sortOptions opts).map Opt.optType) :=
      (hpw.and hnodup2).imp (fun h => lt_of_le_of_ne h.1 h.2)
    exact List.Pairwise.sublist hsub hlt

/-- Witness for `encode_stream_shape` at two distinct non-default
options. -/
theorem encode_stream_shape_witness :
    (∀ o ∈ [Opt.contentType 40, Opt.uriPath [115]], o.length ≤ 270)
    ∧ (∃ n bytes entries,
        coapy.options.encode [Opt.contentType 40, Opt.uriPath [115]] true
          = .ok (n, bytes, entries)
        ∧ (∀ e ∈ entries, e.2 = false)
        ∧ List.Chain (fun a b => a ≤ b ∧ b - a ≤ 14) 0 (entries.map Prod.fst)
        ∧ (([Opt.contentType 40, Opt.uriPath [115]].map Opt.optType).Nodup →
            List.Pairwise (· < ·) (entries.map Prod.fst))) :=
  ⟨by decide,
   encode_stream_shape [Opt.contentType 40, Opt.uriPath [115]] true (by decide)⟩

/-- C3, counterexample: a collection holding two instances of the same
option kind (two `ContentType` instances with values 5 and 6, neither
default) encodes to two entries that both carry option number 1, so the
sequence of emitted option numbers `[1, 1]` is not strictly ascending. -/
theorem encode_stream_shape_cex :
    coapy.options.encode [Opt.contentType 5, Opt.contentType 6] true
      = .ok (2, [17, 5, 1, 6], [(1, false), (1, false)])
    ∧ [(1, false), (1, false)].map Prod.fst = [1, 1]
    ∧ ¬ List.Pairwise (fun a b : Nat => a < b) [1, 1] := by
  refine ⟨?_, by decide, by decide⟩
  have hs : sortOptions [Opt.contentType 5, Opt.contentType 6]
      = [Opt.contentType 5, Opt.contentType 6] := by decide
  have h := encodeLoop_eq true [Opt.contentType 5, Opt.contentType 6] 0
    (by decide) (.cons (by decide) (.cons (by decide) .nil))
  unfold coapy.options.encode
  rw [hs]
  simp only [Nat.cast_zero] at h
  rw [h]
  decide

lemma chain_lt_zero {l : List Nat} (h : List.Chain' (· < ·) l)
    (h1 : ∀ x ∈ l, 1 ≤ x) : List.Chain (· < ·) 0 l := by
  cases l with
  | nil => exact .nil
  | cons a t => exact List.Chain.cons (h1 a (by simp)) h

lemma chain_lt_length :
    ∀ (l : List Nat) (tv : Nat), List.Chain (· < ·) tv l →
      (∀ x ∈ l, x ≤ 13) → l.length ≤ 13 - tv := by
  intro l
  induction l with
  | nil => intro tv _ _; simp
  | cons a t ih =>
    intro tv hc h13
    cases hc with
    | cons hta hat =>
      have h1 := ih a hat (fun x hx => h13 x (by simp [hx]))
      have h2 := h13 a (by simp)
      simp only [List.length_cons]
      omega

lemma foldl_insertOption :
    ∀ (l acc : List Opt), ((acc ++ l).map Opt.optType).Nodup →
      List.foldl insertOption acc l = acc ++ l := by
  intro l
  induction l with
  | nil => intro acc _; simp
  | cons o t ih =>
    intro acc hnd
    have hnotin : o.optType ∉ acc.map Opt.optType := by
      rw [List.map_append, List.nodup_append] at hnd
      intro hmem
      exact hnd.2.2 hmem (by simp)
    have hany : (acc.any (fun p => p.optType == o.optType)) = false := by
      rw [List.any_eq_false]
      intro p hp
      simp only [beq_iff_eq]
      intro he
      exact hnotin (by
        rw [← he]
        exact List.mem_map_of_mem Opt.optType hp)
    have hstep : insertOption acc o = acc ++ [o] := by
      simp [insertOption, hany]
    simp only [List.foldl_cons, hstep]
    have hnd2 : (((acc ++ [o]) ++ t).map Opt.optType).Nodup := by
      have : (acc ++ [o]) ++ t = acc ++ o :: t := by simp
      rw [this]
      exact hnd
    rw [ih (acc ++ [o]) hnd2]
    simp

/-- C1 (amended): for every Python-constructible message `m` (valid,
type-sorted options; one-octet code; representable option lengths)
satisfying the data-model invariant that a non-empty payload requires a
non-zero code, and every transaction id `x < 2^16`, decoding the packed
form yields `x` together with a message of the same transaction kind,
code and payload, whose option set is `m`'s with the default-valued
options removed. -/
theorem message_pack_decode (m : Message) (x : Nat)
    (ht : m.transactionType < 4) (hc : m.code ≤ 255) (hx : x ≤ 65535)
    (hv : ∀ o ∈ m.options, o.valid = true)
    (hl : ∀ o ∈ m.options, o.length ≤ 270)
    (hs : List.Pairwise (fun a b => a.optType < b.optType) m.options)
    (hp : m.code ≠ 0 ∨ m.payload = []) :
    (Message.pack m x).bind Message.decode
      = .ok (x, { transactionType := m.transactionType, code := m.code,
                  payload := m.payload,
                  options := m.options.filter (fun o => !o.isDefault) }) := by
  have hfeq : (fun o : Opt => !(o.isDefault && true)) = (fun o : Opt => !o.isDefault) := by
    funext o
    simp
  have hsle : List.Pairwise (fun a b : Opt => a.optType ≤ b.optType) m.options :=
    hs.imp (fun h => le_of_lt h)
  have hsid : sortOptions m.options = m.options :=
    List.Sorted.insertionSort_eq hsle
  have hpwmap : List.Pairwise (· ≤ ·) (m.options.map Opt.optType) :=
    List.pairwise_map.mpr hsle
  have hltmap : List.Pairwise (· < ·) (m.options.map Opt.optType) :=
    List.pairwise_map.mpr hs
  have hchain : List.Chain (· ≤ ·) 0 (m.options.map Opt.optType) :=
    chain_zero_of_chain' (List.chain'_iff_pairwise.mpr hpwmap)
  have henc := encodeLoop_eq true m.options 0 hl hchain
  rw [hfeq] at henc
  simp only [Nat.cast_zero] at henc
  set fopts := m.options.filter (fun o => !o.isDefault) with hfopts
  have hsubf : (fopts.map Opt.optType).Sublist (m.options.map Opt.optType) :=
    List.Sublist.map _ (List.filter_sublist _)
  have hnum : fopts.length ≤ 13 := by
    have hall13 : ∀ t ∈ m.options.map Opt.optType, t ≤ 13 := by
      intro t htm
      simp only [List.mem_map] at htm
      obtain ⟨o, _, rfl⟩ := htm
      exact o.optType_le
    have hch0 : List.Chain (· < ·) 0 (m.options.map Opt.optType) :=
      chain_lt_zero (List.chain'_iff_pairwise.mpr hltmap) (by
        intro t htm
        simp only [List.mem_map] at htm
        obtain ⟨o, _, rfl⟩ := htm
        exact o.optType_pos)
    have := chain_lt_length (m.options.map Opt.optType) 0 hch0 hall13
    have hle : fopts.length ≤ m.options.length := List.length_filter_le _ _
    simp only [List.length_map] at this
    omega
  -- the packed octets
  have hguard : ¬ (255 < m.code ∨ 65535 < x) := by omega
  have hvt : 64 + m.transactionType % 4 * 16 + fopts.length % 16
      = 64 + m.transactionType * 16 + fopts.length := by
    have : m.transactionType % 4 = m.transactionType := Nat.mod_eq_of_lt ht
    have h16 : fopts.length % 16 = fopts.length := Nat.mod_eq_of_lt (by omega)
    rw [this, h16]
  have hpack : Message.pack m x
      = .ok ([64 + m.transactionType * 16 + fopts.length, m.code,
              x / 256, x % 256] ++ streamBytes 0 fopts ++ m.payload) := by
    unfold Message.pack
    rw [show coapy.options.encode m.options = encodeLoop true (sortOptions m.options) 0
        from rfl]
    rw [hsid, henc]
    simp only [hguard, if_false]
    have hS : ∀ hdr : List Nat,
        (if 0 < fopts.length then hdr ++ streamBytes 0 fopts else hdr)
          = hdr ++ streamBytes 0 fopts := by
      intro hdr
      by_cases h0 : 0 < fopts.length
      · rw [if_pos h0]
      · rw [if_neg h0]
        have hfe : fopts = [] := List.length_eq_zero.mp (by omega)
        rw [hfe]
        simp [streamBytes]
    simp only [hS, hvt]
    rcases hp with hp1 | hp2
    · by_cases hpe : m.payload = []
      · rw [if_neg (by simp [hpe])]
        simp only [hpe, List.append_nil]
      · rw [if_pos ⟨hp1, hpe⟩]
    · rw [if_neg (by simp [hp2])]
      simp only [hp2, List.append_nil]
  rw [hpack]
  -- the decode side
  have hvf : ∀ o ∈ fopts, o.valid = true :=
    fun o ho => hv o (List.mem_of_mem_filter ho)
  have hpwf : List.Pairwise (· ≤ ·) (fopts.map Opt.optType) :=
    List.Pairwise.sublist hsubf hpwmap
  have hchainf : List.Chain (· ≤ ·) 0 (fopts.map Opt.optType) :=
    chain_zero_of_chain' (List.chain'_iff_pairwise.mpr hpwf)
  have hdec := decodeLoop_stream fopts 0 [] m.payload hvf hchainf
  have hnodupf : (fopts.map Opt.optType).Nodup :=
    List.Pairwise.sublist hsubf (hltmap.imp (fun h => ne_of_lt h))
  have hfold : fopts.foldl insertOption [] = fopts := by
    have := foldl_insertOption fopts [] (by simpa using hnodupf)
    simpa using this
  simp only [Except.bind]
  unfold Message.decode
  simp only [List.cons_append, List.nil_append]
  have hv64 : (64 + m.transactionType * 16 + fopts.length) / 64 % 4 = 1 := by
    omega
  have hv16 : (64 + m.transactionType * 16 + fopts.length) / 16 % 4
      = m.transactionType := by
    omega
  have hvm16 : (64 + m.transactionType * 16 + fopts.length) % 16
      = fopts.length := by
    omega
  rw [if_neg (by omega)]
  simp only [hv16, hvm16]
  unfold coapy.options.decode
  rw [hdec]
  simp only [List.nil_append, hfold]
  have hid : x / 256 * 256 + x % 256 = x := by omega
  rw [hid]

/-- C1, counterexample: the packer emits the payload only when the code
is non-zero, so a (constructible) message with code 0 and non-empty
payload does not round-trip — the decoded message's payload is empty
while the original's is not. -/
theorem message_pack_decode_cex :
    (Message.pack { transactionType := Message.CON, code := 0,
                    payload := [120], options := [] } 4660).bind Message.decode
      = .ok (4660, { transactionType := Message.CON, code := 0,
                     payload := [], options := [] })
    ∧ ([] : List Nat) ≠ [120] := by
  decide

/-- Witness for `message_pack_decode` at a concrete CON request with one
option, a non-zero code and a payload. -/
theorem message_pack_decode_witness :
    (({ transactionType := 0, code := 1, payload := [72, 105],
        options := [Opt.uriPath [115]] } : Message).transactionType < 4
     ∧ ({ transactionType := 0, code := 1, payload := [72, 105],
          options := [Opt.uriPath [115]] } : Message).code ≤ 255
     ∧ 4660 ≤ 65535
     ∧ (∀ o ∈ [Opt.uriPath [115]], o.valid = true)
     ∧ (∀ o ∈ [Opt.uriPath [115]], o.length ≤ 270)
     ∧ List.Pairwise (fun a b => a.optType < b.optType) [Opt.uriPath [115]]
     ∧ ((1 : Nat) ≠ 0 ∨ ([72, 105] : List Nat) = []))
    ∧ (Message.pack { transactionType := 0, code := 1, payload := [72, 105],
                      options := [Opt.uriPath [115]] } 4660).bind Message.decode
      = .ok (4660, { transactionType := 0, code := 1, payload := [72, 105],
                     options := [Opt.uriPath [115]].filter (fun o => !o.isDefault) }) :=
  ⟨⟨by decide, by decide, by decide, by decide, by decide, by decide,
    Or.inl (by decide)⟩,
   message_pack_decode
     { transactionType := 0, code := 1, payload := [72, 105],
       options := [Opt.uriPath [115]] } 4660
     (by decide) (by decide) (by decide) (by decide) (by decide) (by decide)
     (Or.inl (by decide))⟩


/-- C5: reading one option entry (header octet `delta·16 + L`, `L ≤ 14`,
followed by its `L` value octets), the decoder (a) discards the entry
and continues when the running option number is a (positive) multiple of
14 (a fence-post); (b) silently drops it and continues when the number
is not in the registry and is even (elective); and (c) fails with an
unrecognized-option error carrying the running number and the entry's
value octets when the number is not in the registry and is odd
(critical, never a multiple of 14). -/
theorem options_decode_entry (d L n tv : Nat) (v rest : List Nat)
    (acc : List Opt) (hd : d ≤ 15) (hL : L ≤ 14) (hv : v.length = L) :
    (0 < tv + d → (tv + d) % 14 = 0 →
      coapy.options.decodeLoop (n + 1) tv acc ((d * 16 + L) :: v ++ rest)
        = coapy.options.decodeLoop n (tv + d) acc rest)
    ∧ (Registry (tv + d) = none → (tv + d) % 2 = 0 →
      coapy.options.decodeLoop (n + 1) tv acc ((d * 16 + L) :: v ++ rest)
        = coapy.options.decodeLoop n (tv + d) acc rest)
    ∧ (Registry (tv + d) = none → (tv + d) % 2 = 1 →
      coapy.options.decodeLoop (n + 1) tv acc ((d * 16 + L) :: v ++ rest)
        = .error (.unrecognizedOption (tv + d) v)) := by
  have hdiv : (d * 16 + L) / 16 = d := by omega
  have hmod : (d * 16 + L) % 16 = L := by omega
  have hne15 : ¬ (L = 15) := by omega
  refine ⟨?_, ?_, ?_⟩
  · intro _ hfp
    simp only [coapy.options.decodeLoop, hdiv, hmod, List.append_eq]
    rw [if_neg hne15]
    rw [List.take_left' hv, List.drop_left' hv]
    split
    next heq => simp at heq
    next v2 r2 heq =>
      simp only [Except.ok.injEq, Prod.mk.injEq] at heq
      obtain ⟨hv2, hr2⟩ := heq
      subst hv2
      subst hr2
      rw [if_pos (by simpa [OPTION_TYPE_FENCEPOST] using hfp)]
  · intro hreg heven
    simp only [coapy.options.decodeLoop, hdiv, hmod, List.append_eq]
    rw [if_neg hne15]
    rw [List.take_left' hv, List.drop_left' hv]
    split
    next heq => simp at heq
    next v2 r2 heq =>
      simp only [Except.ok.injEq, Prod.mk.injEq] at heq
      obtain ⟨hv2, hr2⟩ := heq
      subst hv2
      subst hr2
      by_cases hfp : (tv + d) % OPTION_TYPE_FENCEPOST = 0
      · rw [if_pos hfp]
      · rw [if_neg hfp]
        simp only [hreg]
        rw [if_pos (by simpa [option_type_is_elective] using heven)]
  · intro hreg hodd
    have hfp : ¬ ((tv + d) % OPTION_TYPE_FENCEPOST = 0) := by
      simp only [OPTION_TYPE_FENCEPOST]
      omega
    simp only [coapy.options.decodeLoop, hdiv, hmod, List.append_eq]
    rw [if_neg hne15]
    rw [List.take_left' hv, List.drop_left' hv]
    split
    next heq => simp at heq
    next v2 r2 heq =>
      simp only [Except.ok.injEq, Prod.mk.injEq] at heq
      obtain ⟨hv2, hr2⟩ := heq
      subst hv2
      subst hr2
      rw [if_neg hfp]
      simp only [hreg]
      rw [if_neg (by simp [option_type_is_elective]; omega)]

/-- Witness for `options_decode_entry`: a fence-post entry (number 14),
an unknown elective entry (number 8) and an unknown critical entry
(number 7), each at the head of a one-entry stream. -/
theorem options_decode_entry_witness :
    ((14 : Nat) ≤ 15 ∧ (0 : Nat) ≤ 14 ∧ ([] : List Nat).length = 0
     ∧ (0 < 0 + 14 → (0 + 14) % 14 = 0 →
        coapy.options.decodeLoop 1 0 [] ((14 * 16 + 0) :: [] ++ [])
          = coapy.options.decodeLoop 0 (0 + 14) [] []))
    ∧ ((8 : Nat) ≤ 15 ∧ (1 : Nat) ≤ 14 ∧ ([33] : List Nat).length = 1
       ∧ (Registry (0 + 8) = none → (0 + 8) % 2 = 0 →
          coapy.options.decodeLoop 1 0 [] ((8 * 16 + 1) :: [33] ++ [])
            = coapy.options.decodeLoop 0 (0 + 8) [] []))
    ∧ ((7 : Nat) ≤ 15 ∧ (2 : Nat) ≤ 14 ∧ ([65, 66] : List Nat).length = 2
       ∧ (Registry (0 + 7) = none → (0 + 7) % 2 = 1 →
          coapy.options.decodeLoop 1 0 [] ((7 * 16 + 2) :: [65, 66] ++ [])
            = .error (.unrecognizedOption (0 + 7) [65, 66]))) :=
  ⟨⟨by decide, by decide, by decide,
    (options_decode_entry 14 0 0 0 [] [] [] (by decide) (by decide) (by decide)).1⟩,
   ⟨by decide, by decide, by decide,
    (options_decode_entry 8 1 0 0 [33] [] [] (by decide) (by decide) (by decide)).2.1⟩,
   ⟨by decide, by decide, by decide,
    (options_decode_entry 7 2 0 0 [65, 66] [] [] (by decide) (by decide) (by decide)).2.2⟩⟩

/-- C6: the transmission record created by `send` starts with
`MAX_RETRANSMIT` (5) remaining transmissions exactly when the message is
confirmable and the remote is not a multicast address, and with 1
otherwise; the observed response kind starts absent for CON messages and
is pre-set for NON messages (to NON, the message's own kind). -/
theorem transmission_record_init (m : Message) (mc : Bool) (tid now : Nat)
    (tx : TransmissionRecord)
    (h : TransmissionRecord.create m mc tid now = .ok tx) :
    tx.transmissionsLeft
      = (if m.transactionType = Message.CON ∧ mc = false then MAX_RETRANSMIT else 1)
    ∧ MAX_RETRANSMIT = 5
    ∧ (m.transactionType = Message.CON → tx.responseType = none)
    ∧ (m.transactionType = Message.NON → tx.responseType = some Message.NON) := by
  unfold TransmissionRecord.create at h
  cases hp : Message.pack m tid with
  | error e =>
    rw [hp] at h
    simp at h
  | ok packed =>
    rw [hp] at h
    simp only [Except.ok.injEq] at h
    subst h
    refine ⟨rfl, rfl, ?_, ?_⟩
    · intro hcon
      simp [hcon]
    · intro hnon
      simp only [hnon, Message.NON, Message.CON]
      rw [if_neg (by omega)]

/-- Witness for `transmission_record_init` at a CON message to a
non-multicast remote. -/
theorem transmission_record_init_witness :
    TransmissionRecord.create
        { transactionType := 0, code := 0, payload := [], options := [] }
        false 7 100
      = .ok { message := { transactionType := 0, code := 0, payload := [],
                           options := [] },
              transactionId := 7, packed := [64, 0, 0, 7],
              transmissionsLeft := 5, responseTimeout := 1,
              nextEventTime := some 100, lastEventTime := none,
              transmissionTime := none, responseRecord := none,
              responseType := none, allResponses := [] }
    ∧ ({ message := { transactionType := 0, code := 0, payload := [],
                      options := [] },
         transactionId := 7, packed := [64, 0, 0, 7],
         transmissionsLeft := 5, responseTimeout := 1,
         nextEventTime := some 100, lastEventTime := none,
         transmissionTime := none, responseRecord := none,
         responseType := none,
         allResponses := [] } : TransmissionRecord).transmissionsLeft
        = (if (0 : Nat) = Message.CON ∧ false = false then MAX_RETRANSMIT else 1)
    ∧ MAX_RETRANSMIT = 5 :=
  ⟨by decide,
   (transmission_record_init
      { transactionType := 0, code := 0, payload := [], options := [] }
      false 7 100
      { message := { transactionType := 0, code := 0, payload := [],
                     options := [] },
        transactionId := 7, packed := [64, 0, 0, 7],
        transmissionsLeft := 5, responseTimeout := 1,
        nextEventTime := some 100, lastEventTime := none,
        transmissionTime := none, responseRecord := none,
        responseType := none, allResponses := [] }
      (by decide)).1,
   (transmission_record_init
      { transactionType := 0, code := 0, payload := [], options := [] }
      false 7 100
      { message := { transactionType := 0, code := 0, payload := [],
                     options := [] },
        transactionId := 7, packed := [64, 0, 0, 7],
        transmissionsLeft := 5, responseTimeout := 1,
        nextEventTime := some 100, lastEventTime := none,
        transmissionTime := none, responseRecord := none,
        responseType := none, allResponses := [] }
      (by decide)).2.1⟩

/-- C7, counterexample: a NON transmission is created with its observed
response kind pre-set to NON; when a first matching ACK is processed for
it, `_processResponse` leaves `response_type` at NON rather than setting
it to the response's kind ACK, contradicting the claim that the first
matching response sets the observed response kind. -/
theorem transmission_first_response_cex :
    (TransmissionRecord.create
        { transactionType := Message.NON, code := 0, payload := [],
          options := [] } false 7 100).map
       (fun tx => (tx.processResponse 1 Message.ACK 105).responseType)
      = .ok (some Message.NON)
    ∧ some Message.NON ≠ some Message.ACK := by
  decide

/-- C7 (amended): binding a matching ACK/RST reception record to a
pending transmission cross-links the two records, cancels retransmission
(next-event time cleared, remaining transmissions zeroed, last-event
time updated), keeps the first-bound response record and the first
observed response kind (so the first response sets them only when they
are still absent — always the case for the response slot of a fresh
record, and for the response kind of a CON transmission), and adds the
reception record to the response set. -/
theorem transmission_process_response (rx : ReceptionRecord)
    (tx : TransmissionRecord) (rxId now : Nat) :
    ((rx.setPertainsTo rxId tx now).1.pertainsTo = some tx.transactionId)
    ∧ ((rx.setPertainsTo rxId tx now).2.nextEventTime = none)
    ∧ ((rx.setPertainsTo rxId tx now).2.transmissionsLeft = 0)
    ∧ ((rx.setPertainsTo rxId tx now).2.lastEventTime = some now)
    ∧ ((rx.setPertainsTo rxId tx now).2.responseRecord
        = some (tx.responseRecord.getD rxId))
    ∧ ((rx.setPertainsTo rxId tx now).2.responseType
        = some (tx.responseType.getD rx.message.transactionType))
    ∧ ((rx.setPertainsTo rxId tx now).2.allResponses
        = (if rxId ∈ tx.allResponses then tx.allResponses
           else tx.allResponses ++ [rxId])) := by
  refine ⟨rfl, rfl, rfl, rfl, ?_, ?_, rfl⟩
  · cases h : tx.responseRecord <;>
      simp [ReceptionRecord.setPertainsTo, TransmissionRecord.processResponse, h]
  · cases h : tx.responseType <;>
      simp [ReceptionRecord.setPertainsTo, TransmissionRecord.processResponse, h]

/-- C8, counterexample: a reception record decoded from a NON packet is
created already marked as responded, so already the first invocation of
`ack` (or `reset`) fails, contradicting the claim that on every
reception record the first invocation succeeds. -/
theorem reception_first_reply_cex :
    (ReceptionRecord.create [80, 0, 0, 1]).bind
        (fun rx => rx.ack none) = .error .alreadyResponded
    ∧ (ReceptionRecord.create [80, 0, 0, 1]).bind
        (fun rx => rx.reset) = .error .alreadyResponded := by
  decide

/-- C8 (amended): on every reception record that has not yet replied
(as a freshly created record for a CON message), `ack` and `reset` may
together be invoked at most once: the first invocation succeeds,
sending the default reply (ACK with code 0 for `ack`, RST with code 0
for `reset`) packed with the received transaction id, and any second
invocation of either fails. -/
theorem reception_ack_reset_once (rx : ReceptionRecord)
    (h : rx.responseType = none) (ht : rx.transactionId ≤ 65535) :
    (Message.pack { transactionType := Message.ACK, code := 0, payload := [],
                    options := [] } rx.transactionId
       = .ok [96, 0, rx.transactionId / 256, rx.transactionId % 256])
    ∧ rx.ack none
       = .ok ({ rx with responseType := some Message.ACK },
              [96, 0, rx.transactionId / 256, rx.transactionId % 256])
    ∧ ({ rx with responseType := some Message.ACK } : ReceptionRecord).ack none
       = .error .alreadyResponded
    ∧ ({ rx with responseType := some Message.ACK } : ReceptionRecord).reset
       = .error .alreadyResponded
    ∧ (Message.pack { transactionType := Message.RST, code := 0, payload := [],
                      options := [] } rx.transactionId
       = .ok [112, 0, rx.transactionId / 256, rx.transactionId % 256])
    ∧ rx.reset
       = .ok ({ rx with responseType := some Message.RST },
              [112, 0, rx.transactionId / 256, rx.transactionId % 256])
    ∧ ({ rx with responseType := some Message.RST } : ReceptionRecord).ack none
       = .error .alreadyResponded
    ∧ ({ rx with responseType := some Message.RST } : ReceptionRecord).reset
       = .error .alreadyResponded := by
  have hpa : Message.pack
      ⟨Message.ACK, 0, [], []⟩ rx.transactionId
      = .ok [96, 0, rx.transactionId / 256, rx.transactionId % 256] := by
    unfold Message.pack
    rw [show coapy.options.encode ([] : List Opt) = .ok (0, [], []) from rfl]
    have hx2 : ¬ (65535 < rx.transactionId) := by omega
    simp [Message.ACK, hx2]
  have hpr : Message.pack
      ⟨Message.RST, 0, [], []⟩ rx.transactionId
      = .ok [112, 0, rx.transactionId / 256, rx.transactionId % 256] := by
    unfold Message.pack
    rw [show coapy.options.encode ([] : List Opt) = .ok (0, [], []) from rfl]
    have hx2 : ¬ (65535 < rx.transactionId) := by omega
    simp [Message.RST, hx2]
  refine ⟨hpa, ?_, ?_, ?_, hpr, ?_, ?_, ?_⟩
  · simp [ReceptionRecord.ack, ReceptionRecord.respond,
      ReceptionRecord.hasResponded, h, hpa]
  · simp [ReceptionRecord.ack, ReceptionRecord.respond,
      ReceptionRecord.hasResponded]
  · simp [ReceptionRecord.reset, ReceptionRecord.respond,
      ReceptionRecord.hasResponded]
  · simp [ReceptionRecord.reset, ReceptionRecord.respond,
      ReceptionRecord.hasResponded, h, hpr]
  · simp [ReceptionRecord.ack, ReceptionRecord.respond,
      ReceptionRecord.hasResponded]
  · simp [ReceptionRecord.reset, ReceptionRecord.respond,
      ReceptionRecord.hasResponded]

/-- Witness for `reception_ack_reset_once` at a fresh CON reception
record with transaction id 18. -/
theorem reception_ack_reset_once_witness :
    (({ message := { transactionType := 0, code := 0, payload := [],
                     options := [] },
        transactionId := 18, responseType := none,
        pertainsTo := none } : ReceptionRecord).responseType = none
     ∧ ({ message := { transactionType := 0, code := 0, payload := [],
                       options := [] },
          transactionId := 18, responseType := none,
          pertainsTo := none } : ReceptionRecord).transactionId ≤ 65535)
    ∧ (({ message := { transactionType := 0, code := 0, payload := [],
                       options := [] },
          transactionId := 18, responseType := none,
          pertainsTo := none } : ReceptionRecord).ack none
        = .ok ({ message := { transactionType := 0, code := 0, payload := [],
                              options := [] },
                 transactionId := 18, responseType := some Message.ACK,
                 pertainsTo := none }, [96, 0, 0, 18])) :=
  ⟨⟨rfl, by decide⟩, by
    have := (reception_ack_reset_once
      { message := { transactionType := 0, code := 0, payload := [],
                     options := [] },
        transactionId := 18, responseType := none, pertainsTo := none }
      rfl (by decide)).2.1
    simpa using this⟩

/-- C10: a reception record whose decoded message kind is not CON is
created already marked as responded, so the very first invocation of
`ack` or `reset` on it fails; in particular the automatic `reset()` that
`process` issues for a packet arriving on a discovery socket fails
rather than sending an RST when that packet is not confirmable. -/
theorem reception_non_con_preresponded (packed : List Nat)
    (rx : ReceptionRecord) (hc : ReceptionRecord.create packed = .ok rx)
    (hk : rx.message.transactionType ≠ Message.CON) :
    rx.hasResponded = true
    ∧ rx.reset = .error .alreadyResponded
    ∧ rx.ack none = .error .alreadyResponded := by
  unfold ReceptionRecord.create at hc
  cases hd : Message.decode packed with
  | error e =>
    rw [hd] at hc
    simp at hc
  | ok p =>
    rw [hd] at hc
    simp only [Except.ok.injEq] at hc
    have hmsg : rx.message = p.2 := by rw [← hc]
    have hrt : rx.responseType = some Message.NON := by
      rw [← hc]
      simp only []
      rw [if_neg (by rw [hmsg] at hk; exact hk)]
    refine ⟨?_, ?_, ?_⟩
    · simp [ReceptionRecord.hasResponded, hrt]
    · simp [ReceptionRecord.reset, ReceptionRecord.respond,
        ReceptionRecord.hasResponded, hrt]
    · simp [ReceptionRecord.ack, ReceptionRecord.respond,
        ReceptionRecord.hasResponded, hrt]

/-- Witness for `reception_non_con_preresponded` at a NON packet. -/
theorem reception_non_con_preresponded_witness :
    (ReceptionRecord.create [80, 0, 0, 1]
       = .ok { message := { transactionType := 1, code := 0, payload := [],
                            options := [] },
               transactionId := 1, responseType := some 1, pertainsTo := none }
     ∧ ({ message := { transactionType := 1, code := 0, payload := [],
                       options := [] },
          transactionId := 1, responseType := some 1,
          pertainsTo := none } : ReceptionRecord).message.transactionType
        ≠ Message.CON)
    ∧ (({ message := { transactionType := 1, code := 0, payload := [],
                       options := [] },
          transactionId := 1, responseType := some 1,
          pertainsTo := none } : ReceptionRecord).hasResponded = true
       ∧ ({ message := { transactionType := 1, code := 0, payload := [],
                         options := [] },
            transactionId := 1, responseType := some 1,
            pertainsTo := none } : ReceptionRecord).reset
          = .error .alreadyResponded
       ∧ ({ message := { transactionType := 1, code := 0, payload := [],
                         options := [] },
            transactionId := 1, responseType := some 1,
            pertainsTo := none } : ReceptionRecord).ack none
          = .error .alreadyResponded) :=
  ⟨⟨by decide, by decide⟩,
   reception_non_con_preresponded [80, 0, 0, 1] _ (by decide) (by decide)⟩

set_option maxRecDepth 10000 in
/-- C9: decoding the link-format text
`</hello>;n="hello";ct=0,</secret>;n="secret";ct=0,</sources>;n="sources";ct=40`
yields exactly three link values with URIs `/hello`, `/secret`,
`/sources`, attribute `n` equal to `hello`, `secret`, `sources`, and
attribute `ct` equal to `[0]`, `[0]`, `[40]` respectively, with no
residual text. -/
theorem link_format_decode_s6 :
    decode_resource_descriptions
        ("</hello>;n=\"hello\";ct=0,</secret>;n=\"secret\";ct=0,</sources>;n=\"sources\";ct=40".data)
      = .ok ([{ uri := "/hello".data,
                params := [("n".data, some (.pstr "hello".data)),
                           ("ct".data, some (.pints [0]))] },
              { uri := "/secret".data,
                params := [("n".data, some (.pstr "secret".data)),
                           ("ct".data, some (.pints [0]))] },
              { uri := "/sources".data,
                params := [("n".data, some (.pstr "sources".data)),
                           ("ct".data, some (.pints [40]))] }], [])
    ∧ (decode_resource_descriptions
        ("</hello>;n=\"hello\";ct=0,</secret>;n=\"secret\";ct=0,</sources>;n=\"sources\";ct=40".data)).map
        (fun r => (r.1.map LinkValue.nAttr, r.1.map LinkValue.ctAttr))
      = .ok ([some (.pstr "hello".data), some (.pstr "secret".data),
              some (.pstr "sources".data)],
             [some (.pints [0]), some (.pints [0]), some (.pints [40])]) := by
  constructor
  · decide
  · decide
